import Mathlib

/-!
# Verification of the vodcomms backend (`src/backend/main.py`)

A shallow embedding of the single-file FastAPI backend.  The mutable world is
a `St` record holding the two sqlite tables (`sessions`, `chunks`) and a model
of the filesystem (`FS`).  Each HTTP handler becomes a Lean function from its
request data and `St` to `Except PyErr response × St`; the returned state
reflects exactly the mutations the Python code performs before returning or
raising (an exception raised inside a `with sqlite3.connect(...)` block rolls
the transaction back, so no partially-applied database writes appear).

Nondeterministic inputs of the code are explicit parameters: `uuid.uuid4()`
values and `datetime.utcnow()` are passed in, and the outcome of the external
`ffmpeg` invocation is an `FfmpegOutcome` oracle value.

Path handling mirrors CPython's `pathlib` on POSIX: `Path(s).name` is the last
component after splitting on `/`, dropping empty and `"."` components (and
keeping `".."`); `Path(s).suffix` is the part of the name from its last dot,
unless that dot is the first or last character of the name.
-/

namespace Vodcomms

/-! ## POSIX path model (CPython `pathlib.PurePosixPath` semantics) -/

/-- Split a character list at `'/'` into (possibly empty) groups. -/
def splitSlashL : List Char → List (List Char)
  | [] => [[]]
  | c :: cs =>
    if c = '/' then [] :: splitSlashL cs
    else
      match splitSlashL cs with
      | [] => [[c]]
      | g :: gs => (c :: g) :: gs

/-- The path components of `s` as `pathlib` keeps them: split on `/`, drop
empty components and `"."` components; `".."` components are kept. -/
def pathCompsL (s : String) : List (List Char) :=
  (splitSlashL s.toList).filter (fun c => !(c = [] ∨ c = ['.']))

/-- `pathlib.PurePosixPath(s).name` as a character list: the final component,
or `[]` when there is none. -/
def pathNameL (s : String) : List Char :=
  (pathCompsL s).getLast?.getD []

/-- `pathlib.PurePosixPath(s).name`. -/
def pathName (s : String) : String :=
  String.mk (pathNameL s)

/-- Index of the last `'.'` in a character list, if any. -/
def lastDotIdx (n : List Char) : Option Nat :=
  ((List.range n.length).filter (fun i => n.get? i = some '.')).getLast?

/-- `pathlib.PurePosixPath(s).suffix`: `name[i:]` for the last dot position
`i` when `0 < i < len(name) - 1`, otherwise `""`. -/
def pySuffix (s : String) : String :=
  let n := pathNameL s
  match lastDotIdx n with
  | some i => if 0 < i ∧ i + 1 < n.length then String.mk (n.drop i) else ""
  | none => ""

/-- `str.lower()` (the extensions compared here are ASCII). -/
def pyLower (s : String) : String :=
  String.mk (s.toList.map Char.toLower)

/-- Resolve `".."` components against the preceding ones, the way the POSIX
kernel resolves an absolute path (at the root, `".."` stays at the root). -/
def normCompsL (s : String) : List (List Char) :=
  (pathCompsL s).foldl (fun acc c => if c = ['.', '.'] then acc.dropLast else acc ++ [c]) []

/-- Canonical absolute form of path `s` (all paths in this model are
absolute): `"/"` followed by the resolved components joined with `/`. -/
def normPath (s : String) : String :=
  "/" ++ String.intercalate "/" ((normCompsL s).map String.mk)

/-- `dir / name` for a `name` without separators: `pathlib` ignores an empty
trailing component (`Path("a") / "" == Path("a")`). -/
def pyJoin (dir name : String) : String :=
  if name = "" then dir else dir ++ "/" ++ name

/-! ## Filesystem model

Paths are stored in canonical (`normPath`) form.  `files` is an association
list from path to file content; a write replaces any previous binding, which
is how `open(path, "wb")` truncates and rewrites an existing file. -/

inductive PyErr where
  /-- `fastapi.HTTPException(status_code, detail)`. -/
  | httpException (status : Nat) (detail : String)
  /-- `sqlite3.OperationalError` with its message. -/
  | operationalError (msg : String)
  /-- `IsADirectoryError` from `open(path, "wb")` on a directory. -/
  | isADirectoryError
  deriving Repr, DecidableEq

structure FS where
  dirs : List String
  files : List (String × String)
  deriving Repr, DecidableEq

/-- All the directories `p.mkdir(parents=True, exist_ok=True)` guarantees to
exist afterwards: every ancestor of `p`, the root included. -/
def mkdirChain (p : String) : List String :=
  (List.range ((normCompsL p).length + 1)).map
    (fun k => "/" ++ String.intercalate "/" (((normCompsL p).take k).map String.mk))

def FS.mkdirp (fs : FS) (p : String) : FS :=
  { fs with dirs := (mkdirChain p ++ fs.dirs).dedup }

/-- Replace the binding for `k` (insert if absent). -/
def setAssoc (k v : String) (l : List (String × String)) : List (String × String) :=
  (k, v) :: l.filter (fun kv => !(kv.1 = k))

/-- `open(p, "wb")` followed by a full write: fails if `p` denotes an
existing directory, otherwise (over)writes the file. -/
def FS.writeFile (fs : FS) (p content : String) : Except PyErr FS :=
  if fs.dirs.contains (normPath p) then .error .isADirectoryError
  else .ok { fs with files := setAssoc (normPath p) content fs.files }

/-- An unconditional write, used for the output file `ffmpeg -y` produces. -/
def FS.forceWrite (fs : FS) (p content : String) : FS :=
  { fs with files := setAssoc (normPath p) content fs.files }

/-- `Path(p).exists()`. -/
def FS.existsPath (fs : FS) (p : String) : Bool :=
  fs.dirs.contains (normPath p) || (fs.files.lookup (normPath p)).isSome

/-! ## Data model (the two sqlite tables) -/

/-- A row of the `sessions` table. -/
structure Session where
  id : String
  title : Option String
  status : String
  youtube_url : Option String
  media_path : Option String
  audio_path : Option String
  created_at : String
  deriving Repr, DecidableEq

/-- A row of the `chunks` table. -/
structure Chunk where
  id : String
  session_id : String
  start_ms : Int
  end_ms : Int
  text : String
  deriving Repr, DecidableEq

/-- The whole mutable world: both tables plus the filesystem. -/
structure St where
  sessions : List Session
  chunks : List Chunk
  fs : FS
  deriving Repr, DecidableEq

/-- `DATA_DIR` (the concrete absolute prefix is irrelevant; the layout below
it is the one from the source). -/
def DATA_DIR : String := "/data"

def UPLOAD_DIR : String := "/data/uploads"

def AUDIO_DIR : String := "/data/audio"

/-- The directories `init_storage` creates. -/
def init_fs : FS :=
  ((({ dirs := [], files := [] } : FS).mkdirp DATA_DIR).mkdirp UPLOAD_DIR).mkdirp AUDIO_DIR

/-! ## Handlers -/

/-- `fetch_session`: `SELECT * FROM sessions WHERE id = ?`, 404 when absent. -/
def fetch_session (session_id : String) (st : St) : Except PyErr Session :=
  match st.sessions.find? (fun s => s.id == session_id) with
  | none => .error (.httpException 404 "Session not found")
  | some s => .ok s

/-- Insertion into a list sorted by `start_ms` ascending. -/
def insertChunk (c : Chunk) : List Chunk → List Chunk
  | [] => [c]
  | d :: ds => if c.start_ms ≤ d.start_ms then c :: d :: ds else d :: insertChunk c ds

/-- `ORDER BY start_ms` (ascending). -/
def sortChunks : List Chunk → List Chunk
  | [] => []
  | c :: cs => insertChunk c (sortChunks cs)

/-- `fetch_chunks`: `SELECT * FROM chunks WHERE session_id = ? ORDER BY start_ms`. -/
def fetch_chunks (session_id : String) (st : St) : List Chunk :=
  sortChunks (st.chunks.filter (fun c => c.session_id == session_id))

/-- sqlite rejects an `INSERT` whose column list and `VALUES` list disagree in
length, at prepare time, before any parameter binding. -/
def sqlitePrepareInsert (cols : List String) (nPlaceholders : Nat) : Except PyErr Unit :=
  if cols.length = nPlaceholders then .ok ()
  else .error (.operationalError
    (toString nPlaceholders ++ " values for " ++ toString cols.length ++ " columns"))

/-- `create_session`.  The handler computes a fresh uuid (`session_id`) and
timestamp (`created_at`), then runs
`INSERT INTO sessions(id, title, status, youtube_url, created_at) VALUES (?, ?, ?, ?)`
with parameters `(session_id, title, youtube_url, created_at)`.  The column
list names five columns but the statement has four placeholders, so sqlite
raises `OperationalError` at prepare time; the `with` block rolls back, no row
is inserted, and the exception escapes the handler.  The `.ok` branch below is
unreachable (5 ≠ 4). -/
def create_session (title youtube_url : Option String) (session_id created_at : String)
    (st : St) : Except PyErr Session × St :=
  match sqlitePrepareInsert ["id", "title", "status", "youtube_url", "created_at"] 4 with
  | .error e => (.error e, st)
  | .ok _ =>
    (.ok { id := session_id, title := title, status := "created", youtube_url := youtube_url,
           media_path := none, audio_path := none, created_at := created_at }, st)

/-- The row update of `UPDATE sessions SET status = 'uploaded', media_path = ?,
audio_path = NULL WHERE id = ?`. -/
def uploadUpd (dest_path : String) (s : Session) : Session :=
  { s with status := "uploaded", media_path := some dest_path, audio_path := none }

/-- The `UPDATE sessions SET status = 'uploaded', media_path = ?, audio_path = NULL
WHERE id = ?` statement. -/
def markUploaded (session_id dest_path : String) (sessions : List Session) : List Session :=
  sessions.map (fun s => if s.id == session_id then uploadUpd dest_path s else s)

structure UploadResp where
  session : String
  stored_path : String
  original_filename : String
  deriving Repr, DecidableEq

/-- `upload_media`.  `filename` is `file.filename` (`None` or the
client-supplied string); `content` stands for the uploaded byte stream. -/
def upload_media (session_id : String) (filename : Option String) (content : String)
    (st : St) : Except PyErr UploadResp × St :=
  match fetch_session session_id st with
  | .error e => (.error e, st)
  | .ok _session =>
    match filename with
    | none => (.error (.httpException 400 "Filename is required"), st)
    | some f =>
      if f = "" then (.error (.httpException 400 "Filename is required"), st)
      else
        let dest_dir := UPLOAD_DIR ++ "/" ++ session_id
        let fs1 := st.fs.mkdirp dest_dir
        let dest_path := pyJoin dest_dir (pathName f)
        match fs1.writeFile dest_path content with
        | .error e => (.error e, { st with fs := fs1 })
        | .ok fs2 =>
          (.ok { session := session_id, stored_path := dest_path, original_filename := f },
           { st with fs := fs2, sessions := markUploaded session_id dest_path st.sessions })

/-- Outcome of the external `subprocess.run(["ffmpeg", ...], check=True)` call. -/
inductive FfmpegOutcome where
  /-- ffmpeg ran and exited 0, having written the output file. -/
  | ok
  /-- the binary could not be found: `FileNotFoundError`. -/
  | binaryMissing
  /-- ffmpeg exited nonzero: `CalledProcessError` with this stderr. -/
  | exitNonzero (stderr : String)
  deriving Repr, DecidableEq

/-- The fixed extension allow-list of `extract_audio`. -/
def audioExts : List String := [".wav", ".mp3", ".m4a", ".ogg", ".flac"]

/-- `extract_audio(session_id, media_path)`.  Creates the audio directory,
passes the input through if its suffix (lower-cased) is in the allow-list,
otherwise invokes ffmpeg targeting `AUDIO_DIR/<session_id>.wav`. -/
def extract_audio (session_id media_path : String) (outcome : FfmpegOutcome)
    (fs : FS) : Except PyErr String × FS :=
  let audio_path := AUDIO_DIR ++ "/" ++ session_id ++ ".wav"
  let fs1 := fs.mkdirp AUDIO_DIR
  if audioExts.contains (pyLower (pySuffix media_path)) then (.ok media_path, fs1)
  else
    match outcome with
    | .ok => (.ok audio_path, fs1.forceWrite audio_path "pcm_s16le 16000")
    | .binaryMissing =>
      (.error (.httpException 500 "ffmpeg is required to extract audio from video files."), fs1)
    | .exitNonzero stderr =>
      (.error (.httpException 500 ("Audio extraction failed: " ++ stderr)), fs1)

/-- The three hardcoded placeholder chunks `process_media` inserts; the ids
are the three `uuid.uuid4()` draws. -/
def dummy_chunks (id0 id1 id2 session_id : String) : List Chunk :=
  [ { id := id0, session_id := session_id, start_ms := 0, end_ms := 15000,
      text := "Intro and setup for the round." },
    { id := id1, session_id := session_id, start_ms := 15000, end_ms := 30000,
      text := "Key play-by-play comms." },
    { id := id2, session_id := session_id, start_ms := 30000, end_ms := 45000,
      text := "Post-round recap and callouts." } ]

/-- `DELETE FROM chunks WHERE session_id = ?` followed by the `executemany`
insert of the placeholder chunks. -/
def replaceChunks (session_id : String) (newChunks : List Chunk) (chunks : List Chunk) :
    List Chunk :=
  chunks.filter (fun c => !(c.session_id == session_id)) ++ newChunks

/-- The row update of `UPDATE sessions SET status = 'ready', audio_path = ?
WHERE id = ?`. -/
def readyUpd (audio_path : String) (s : Session) : Session :=
  { s with status := "ready", audio_path := some audio_path }

/-- `UPDATE sessions SET status = 'ready', audio_path = ? WHERE id = ?`. -/
def markReady (session_id audio_path : String) (sessions : List Session) : List Session :=
  sessions.map (fun s => if s.id == session_id then readyUpd audio_path s else s)

structure ProcessResp where
  session : String
  audio_path : String
  chunks : List Chunk
  deriving Repr, DecidableEq

/-- `process_media`.  `ids` are the three uuid draws for the placeholder
chunks; `outcome` is the ffmpeg oracle. -/
def process_media (session_id : String) (ids : String × String × String)
    (outcome : FfmpegOutcome) (st : St) : Except PyErr ProcessResp × St :=
  match fetch_session session_id st with
  | .error e => (.error e, st)
  | .ok session =>
    match session.media_path with
    | none => (.error (.httpException 400 "Upload a media file before processing."), st)
    | some media_path =>
      if media_path = "" then
        (.error (.httpException 400 "Upload a media file before processing."), st)
      else if !(st.fs.existsPath media_path) then
        (.error (.httpException 400 "Stored media file is missing."), st)
      else
        match extract_audio session_id media_path outcome st.fs with
        | (.error e, fs1) => (.error e, { st with fs := fs1 })
        | (.ok audio_path, fs1) =>
          let newChunks := dummy_chunks ids.1 ids.2.1 ids.2.2 session_id
          let st' : St :=
            { sessions := markReady session_id audio_path st.sessions,
              chunks := replaceChunks session_id newChunks st.chunks,
              fs := fs1 }
          (.ok { session := session_id, audio_path := audio_path,
                 chunks := fetch_chunks session_id st' }, st')

/-! ## Invariants and reachability -/

/-- The transcript payload of a chunk, without its uuid. -/
def chunkData (c : Chunk) : String × Int × Int × String :=
  (c.session_id, c.start_ms, c.end_ms, c.text)

/-- The spec's §3 invariant: a session has chunks only if its status is
`ready`. -/
def ChunksOnlyIfReady (st : St) : Prop :=
  ∀ s ∈ st.sessions, st.chunks.filter (fun c => c.session_id == s.id) ≠ [] → s.status = "ready"

instance (st : St) : Decidable (ChunksOnlyIfReady st) := by
  unfold ChunksOnlyIfReady; infer_instance

/-- The invariant the code actually maintains: a session has chunks only if
its status is `ready` or `uploaded` (the latter after a re-upload, whose
stale chunks survive until the next `process`). -/
def ChunksOnlyIfActive (st : St) : Prop :=
  ∀ s ∈ st.sessions, st.chunks.filter (fun c => c.session_id == s.id) ≠ [] →
    s.status = "ready" ∨ s.status = "uploaded"

instance (st : St) : Decidable (ChunksOnlyIfActive st) := by
  unfold ChunksOnlyIfActive; infer_instance

/-- States reachable through the handlers.  The base case is a fresh store
(`init_storage` ran, no chunks) whose `sessions` table may already hold rows
in their initial shape — status `created` (the schema default), no media and
no audio path; these are the rows `create_session` is meant to produce (its
INSERT defect is the subject of claim C1).  Each handler step keeps whatever
state the handler leaves behind, whether it returns or raises. -/
inductive Reachable : St → Prop where
  | init (sessions : List Session)
      (h : ∀ s ∈ sessions, s.status = "created" ∧ s.media_path = none ∧ s.audio_path = none) :
      Reachable { sessions := sessions, chunks := [], fs := init_fs }
  | create (title youtube_url : Option String) (session_id created_at : String) (st : St)
      (h : Reachable st) :
      Reachable (create_session title youtube_url session_id created_at st).2
  | upload (session_id : String) (filename : Option String) (content : String) (st : St)
      (h : Reachable st) :
      Reachable (upload_media session_id filename content st).2
  | process (session_id : String) (ids : String × String × String) (outcome : FfmpegOutcome)
      (st : St) (h : Reachable st) :
      Reachable (process_media session_id ids outcome st).2

/-! ## Concrete states used by the witnesses -/

/-- A freshly created session row. -/
def exSession : Session :=
  { id := "s1", title := none, status := "created", youtube_url := none,
    media_path := none, audio_path := none, created_at := "2024-01-01T00:00:00Z" }

def exSt0 : St := { sessions := [exSession], chunks := [], fs := init_fs }

/-- After uploading `clip.mp4` to `s1`. -/
def exSt1 : St := (upload_media "s1" (some "clip.mp4") "bytes" exSt0).2

/-- After processing `s1` (ffmpeg succeeds). -/
def exSt2 : St := (process_media "s1" ("c1", "c2", "c3") .ok exSt1).2

/-- After re-uploading new media to the already-`ready` session `s1`. -/
def exSt3 : St := (upload_media "s1" (some "clip2.mp4") "bytes2" exSt2).2

/-- A session whose recorded media file is absent from the filesystem. -/
def exSessionGone : Session :=
  { id := "s2", title := none, status := "uploaded", youtube_url := none,
    media_path := some "/data/uploads/s2/gone.mp4", audio_path := none,
    created_at := "2024-01-01T00:00:00Z" }

def exStGone : St := { sessions := [exSessionGone], chunks := [], fs := init_fs }

/-- An uploaded session whose stored media is a `.mkv`, with the file on disk. -/
def exSessionMkv : Session :=
  { id := "s3", title := none, status := "uploaded", youtube_url := none,
    media_path := some "/data/uploads/s3/clip.mkv", audio_path := none,
    created_at := "2024-01-01T00:00:00Z" }

def exStMkv : St :=
  { sessions := [exSessionMkv], chunks := [],
    fs := (init_fs.mkdirp (UPLOAD_DIR ++ "/s3")).forceWrite "/data/uploads/s3/clip.mkv" "mkv" }

/-- The session row of `exSt1` (used to discharge witness hypotheses). -/
def exUploaded : Session :=
  { id := "s1", title := none, status := "uploaded", youtube_url := none,
    media_path := some "/data/uploads/s1/clip.mp4", audio_path := none,
    created_at := "2024-01-01T00:00:00Z" }

/-- The response of processing `exSt1`. -/
def exProcResp : ProcessResp :=
  { session := "s1", audio_path := "/data/audio/s1.wav",
    chunks := dummy_chunks "c1" "c2" "c3" "s1" }

/-- Processing `exSt2` a second time (fresh uuids). -/
def exSt2b : St := (process_media "s1" ("d1", "d2", "d3") .ok exSt2).2

/-- Uploading a path-traversal filename to `s1`. -/
def exStEvil : St := (upload_media "s1" (some "../../../etc/evil.mp4") "payload" exSt0).2

def exEvilResp : UploadResp :=
  { session := "s1", stored_path := "/data/uploads/s1/evil.mp4",
    original_filename := "../../../etc/evil.mp4" }

/-! ## Sanity checks of the `pathlib` model against CPython 3.11 -/

example : pathName ".." = ".." := by decide

example : pathName "../../etc/passwd" = "passwd" := by decide

example : pathName "a/./b" = "b" := by decide

example : pathName "." = "" := by decide

example : pySuffix "a.WAV" = ".WAV" := by decide

example : pySuffix ".wav" = "" := by decide

example : pySuffix "foo." = "" := by decide

example : pySuffix "/data/uploads/s1/clip.mp4" = ".mp4" := by decide

example : pyLower (pySuffix "A.M4A") = ".m4a" := by decide

example : normPath "/data/uploads/s1/.." = "/data/uploads" := by decide

/-! ## Elimination lemmas for successful handler runs -/

/-- A successful `upload_media` run: the session existed, the filename was
nonempty, the sanitized destination was written, and the row was updated. -/
theorem upload_media_ok_elim (sid : String) (f : Option String) (content : String) (st : St)
    (r : UploadResp) (st' : St)
    (h : upload_media sid f content st = (.ok r, st')) :
    ∃ s fn fs2, fetch_session sid st = .ok s ∧ f = some fn ∧ fn ≠ "" ∧
      r = { session := sid, stored_path := pyJoin (UPLOAD_DIR ++ "/" ++ sid) (pathName fn),
            original_filename := fn } ∧
      (st.fs.mkdirp (UPLOAD_DIR ++ "/" ++ sid)).writeFile
          (pyJoin (UPLOAD_DIR ++ "/" ++ sid) (pathName fn)) content = .ok fs2 ∧
      st' = { st with
                fs := fs2,
                sessions := markUploaded sid (pyJoin (UPLOAD_DIR ++ "/" ++ sid) (pathName fn))
                  st.sessions } := by
  unfold upload_media at h
  cases hf : fetch_session sid st with
  | error e => rw [hf] at h; simp at h
  | ok s =>
    rw [hf] at h
    cases f with
    | none => simp at h
    | some fn =>
      dsimp only at h
      by_cases hfn : fn = ""
      · simp [hfn] at h
      · rw [if_neg hfn] at h
        cases hw : (st.fs.mkdirp (UPLOAD_DIR ++ "/" ++ sid)).writeFile
            (pyJoin (UPLOAD_DIR ++ "/" ++ sid) (pathName fn)) content with
        | error e => rw [hw] at h; simp at h
        | ok fs2 =>
          rw [hw] at h
          dsimp only at h
          simp only [Prod.mk.injEq, Except.ok.injEq] at h
          exact ⟨s, fn, fs2, rfl, rfl, hfn, h.1.symm, hw, h.2.symm⟩

/-- A successful `process_media` run: the session existed with a recorded,
still-present media file, extraction succeeded, and the store was updated. -/
theorem process_media_ok_elim (sid : String) (ids : String × String × String)
    (outcome : FfmpegOutcome) (st : St) (r : ProcessResp) (st' : St)
    (h : process_media sid ids outcome st = (.ok r, st')) :
    ∃ s mp ap fs1, fetch_session sid st = .ok s ∧ s.media_path = some mp ∧ mp ≠ "" ∧
      st.fs.existsPath mp = true ∧
      extract_audio sid mp outcome st.fs = (.ok ap, fs1) ∧
      st' = { sessions := markReady sid ap st.sessions,
              chunks := replaceChunks sid (dummy_chunks ids.1 ids.2.1 ids.2.2 sid) st.chunks,
              fs := fs1 } ∧
      r = { session := sid, audio_path := ap, chunks := fetch_chunks sid st' } := by
  unfold process_media at h
  cases hf : fetch_session sid st with
  | error e => rw [hf] at h; simp at h
  | ok s =>
    rw [hf] at h
    dsimp only at h
    cases hmp : s.media_path with
    | none => rw [hmp] at h; simp at h
    | some mp =>
      rw [hmp] at h
      dsimp only at h
      by_cases hempty : mp = ""
      · simp [hempty] at h
      · rw [if_neg hempty] at h
        cases hex : st.fs.existsPath mp with
        | false => rw [hex] at h; simp at h
        | true =>
          rw [hex] at h
          simp only [Bool.not_true, Bool.false_eq_true, if_false] at h
          cases hx : extract_audio sid mp outcome st.fs with
          | mk res fs1 =>
            rw [hx] at h
            cases res with
            | error e => simp at h
            | ok ap =>
              simp only [Prod.mk.injEq, Except.ok.injEq] at h
              exact ⟨s, mp, ap, fs1, rfl, hmp, hempty, hex, hx, h.2.symm, by rw [← h.2]; exact h.1.symm⟩

/-! ## C1 -/

/-- C1: the claim says `create_session` persists and returns a session with
status `created` and a fresh id and timestamp.  The code's INSERT statement
names five columns but supplies four placeholders, so every call raises
`sqlite3.OperationalError` ("4 values for 5 columns"): no session is ever
persisted or returned.  This theorem evaluates the handler at every input. -/
theorem C1_create_session_always_raises (title youtube_url : Option String)
    (session_id created_at : String) (st : St) :
    create_session title youtube_url session_id created_at st
      = (.error (.operationalError "4 values for 5 columns"), st) := rfl

/-! ## Row-lookup lemmas -/

theorem find?_markUploaded (sid dest : String) (l : List Session) :
    (markUploaded sid dest l).find? (fun s => s.id == sid)
      = (l.find? (fun s => s.id == sid)).map (uploadUpd dest) := by
  induction l with
  | nil => rfl
  | cons a l ih =>
    by_cases h : a.id = sid
    · have h1 : markUploaded sid dest (a :: l) = uploadUpd dest a :: markUploaded sid dest l := by
        simp [markUploaded, h]
      rw [h1, List.find?_cons_of_pos _ (by simp [uploadUpd, h]),
        List.find?_cons_of_pos _ (by simp [h])]
      rfl
    · have h1 : markUploaded sid dest (a :: l) = a :: markUploaded sid dest l := by
        simp [markUploaded, h]
      rw [h1, List.find?_cons_of_neg _ (by simp [h]), List.find?_cons_of_neg _ (by simp [h]), ih]

theorem find?_markReady (sid ap : String) (l : List Session) :
    (markReady sid ap l).find? (fun s => s.id == sid)
      = (l.find? (fun s => s.id == sid)).map (readyUpd ap) := by
  induction l with
  | nil => rfl
  | cons a l ih =>
    by_cases h : a.id = sid
    · have h1 : markReady sid ap (a :: l) = readyUpd ap a :: markReady sid ap l := by
        simp [markReady, h]
      rw [h1, List.find?_cons_of_pos _ (by simp [readyUpd, h]),
        List.find?_cons_of_pos _ (by simp [h])]
      rfl
    · have h1 : markReady sid ap (a :: l) = a :: markReady sid ap l := by
        simp [markReady, h]
      rw [h1, List.find?_cons_of_neg _ (by simp [h]), List.find?_cons_of_neg _ (by simp [h]), ih]

/-! ## C2 -/

/-- C2: a successful media upload sets the session's `media_path` to the
stored file path, sets its status to `uploaded`, and clears any prior
`audio_path`. -/
theorem C2_upload_updates_session (sid : String) (f : Option String) (content : String)
    (st : St) (r : UploadResp) (st' : St)
    (h : upload_media sid f content st = (.ok r, st')) :
    ∃ s', fetch_session sid st' = .ok s' ∧ s'.status = "uploaded" ∧
      s'.media_path = some r.stored_path ∧ s'.audio_path = none := by
  obtain ⟨s, fn, fs2, hf, hfeq, hfn, hr, hw, hst'⟩ := upload_media_ok_elim sid f content st r st' h
  subst hst'
  unfold fetch_session at hf ⊢
  cases hfind : st.sessions.find? (fun x => x.id == sid) with
  | none => rw [hfind] at hf; simp at hf
  | some s0 =>
    dsimp only
    rw [find?_markUploaded, hfind]
    exact ⟨_, rfl, rfl, by rw [hr]; rfl, rfl⟩

/-- Witness for C2 at a concrete input. -/
theorem C2_upload_updates_session_witness :
    ∃ s', fetch_session "s1" exSt1 = .ok s' ∧ s'.status = "uploaded" ∧
      s'.media_path = some ({ session := "s1", stored_path := "/data/uploads/s1/clip.mp4",
                              original_filename := "clip.mp4" } : UploadResp).stored_path ∧
      s'.audio_path = none :=
  C2_upload_updates_session "s1" (some "clip.mp4") "bytes" exSt0
    { session := "s1", stored_path := "/data/uploads/s1/clip.mp4",
      original_filename := "clip.mp4" } exSt1 rfl

/-! ## C3 -/

/-- C3: `process` fails with the "upload a media file before processing"
400 error when the session has no `media_path`, and with the "stored media
file is missing" 400 error when the recorded file is absent from disk; in
both cases the store is returned unchanged. -/
theorem C3_process_invalid_state (sid : String) (ids : String × String × String)
    (outcome : FfmpegOutcome) (st : St) (s : Session)
    (hf : fetch_session sid st = .ok s) :
    ((s.media_path = none ∨ s.media_path = some "") →
      process_media sid ids outcome st
        = (.error (.httpException 400 "Upload a media file before processing."), st)) ∧
    (∀ mp, s.media_path = some mp → mp ≠ "" → st.fs.existsPath mp = false →
      process_media sid ids outcome st
        = (.error (.httpException 400 "Stored media file is missing."), st)) := by
  constructor
  · intro hmp
    unfold process_media
    rw [hf]
    dsimp only
    rcases hmp with h | h
    · rw [h]
    · rw [h]; rfl
  · intro mp hmp hne hex
    unfold process_media
    rw [hf]
    dsimp only
    rw [hmp]
    dsimp only
    rw [if_neg hne, hex]
    rfl

/-- Witness for C3: both failure modes at concrete inputs. -/
theorem C3_process_invalid_state_witness :
    (process_media "s1" ("a", "b", "c") .ok exSt0
      = (.error (.httpException 400 "Upload a media file before processing."), exSt0)) ∧
    (process_media "s2" ("a", "b", "c") .ok exStGone
      = (.error (.httpException 400 "Stored media file is missing."), exStGone)) :=
  ⟨(C3_process_invalid_state "s1" ("a", "b", "c") .ok exSt0 exSession rfl).1 (Or.inl rfl),
   (C3_process_invalid_state "s2" ("a", "b", "c") .ok exStGone exSessionGone rfl).2
     "/data/uploads/s2/gone.mp4" rfl (by decide) (by decide)⟩

/-! ## C10 -/

/-- C10: uploading with a missing or empty filename fails with the 400
"Filename is required" error and the store — session row, filesystem, all of
it — is returned exactly as it was. -/
theorem C10_upload_requires_filename (sid : String) (f : Option String) (content : String)
    (st : St) (s : Session)
    (hf : fetch_session sid st = .ok s) (hemp : f = none ∨ f = some "") :
    upload_media sid f content st = (.error (.httpException 400 "Filename is required"), st) := by
  unfold upload_media
  rw [hf]
  dsimp only
  rcases hemp with h | h <;> rw [h]
  rfl

/-- Witness for C10: both the `None` and the `""` filename at a concrete
store. -/
theorem C10_upload_requires_filename_witness :
    upload_media "s1" none "data" exSt0
      = (.error (.httpException 400 "Filename is required"), exSt0) ∧
    upload_media "s1" (some "") "data" exSt0
      = (.error (.httpException 400 "Filename is required"), exSt0) :=
  ⟨C10_upload_requires_filename "s1" none "data" exSt0 exSession rfl (Or.inl rfl),
   C10_upload_requires_filename "s1" (some "") "data" exSt0 exSession rfl (Or.inr rfl)⟩

/-! ## Chunk-table lemmas -/

/-- After a delete-then-insert, the rows selected for `sid` are exactly the
inserted ones. -/
theorem filter_replaceChunks (sid : String) (nc l : List Chunk)
    (hnc : ∀ c ∈ nc, c.session_id = sid) :
    (replaceChunks sid nc l).filter (fun c => c.session_id == sid) = nc := by
  unfold replaceChunks
  rw [List.filter_append]
  have h1 : (l.filter (fun c => !(c.session_id == sid))).filter
      (fun c => c.session_id == sid) = [] := by
    rw [List.filter_eq_nil_iff]
    intro a ha
    have := (List.mem_filter.mp ha).2
    simp only [Bool.not_eq_true'] at this
    simp [this]
  have h2 : nc.filter (fun c => c.session_id == sid) = nc :=
    List.filter_eq_self.mpr (fun c hc => by simp [hnc c hc])
  rw [h1, h2, List.nil_append]

/-- The placeholder chunks are already sorted by `start_ms`. -/
theorem sortChunks_dummy (id0 id1 id2 sid : String) :
    sortChunks (dummy_chunks id0 id1 id2 sid) = dummy_chunks id0 id1 id2 sid := by
  simp [dummy_chunks, sortChunks, insertChunk]

/-- After a successful `process_media`, `fetch_chunks` returns exactly the
three placeholder chunks. -/
theorem fetch_chunks_after_process (sid : String) (ids : String × String × String)
    (outcome : FfmpegOutcome) (st : St) (r : ProcessResp) (st' : St)
    (h : process_media sid ids outcome st = (.ok r, st')) :
    fetch_chunks sid st' = dummy_chunks ids.1 ids.2.1 ids.2.2 sid := by
  obtain ⟨s, mp, ap, fs1, hf, hmp, hne, hex, hx, hst', hr⟩ :=
    process_media_ok_elim sid ids outcome st r st' h
  subst hst'
  unfold fetch_chunks
  dsimp only
  rw [filter_replaceChunks _ _ _ (by simp [dummy_chunks])]
  exact sortChunks_dummy ids.1 ids.2.1 ids.2.2 sid

/-! ## C5 -/

/-- C5: processing an `uploaded` session with a present media file, when
extraction succeeds, marks the session `ready` and afterwards `list_chunks`
returns exactly the three placeholder chunks in ascending `start_ms` order,
fully replacing whatever chunks existed before. -/
theorem C5_process_marks_ready_and_replaces_chunks (sid id0 id1 id2 : String)
    (outcome : FfmpegOutcome) (st : St) (s : Session) (mp : String) (r : ProcessResp) (st' : St)
    (hf : fetch_session sid st = .ok s) (hstatus : s.status = "uploaded")
    (hmp : s.media_path = some mp)
    (h : process_media sid (id0, id1, id2) outcome st = (.ok r, st')) :
    (∃ s', fetch_session sid st' = .ok s' ∧ s'.status = "ready") ∧
    fetch_chunks sid st' = dummy_chunks id0 id1 id2 sid ∧
    (fetch_chunks sid st').map (fun c => (c.start_ms, c.end_ms, c.text)) =
      [((0 : Int), (15000 : Int), "Intro and setup for the round."),
       (15000, 30000, "Key play-by-play comms."),
       (30000, 45000, "Post-round recap and callouts.")] := by
  obtain ⟨s2, mp2, ap, fs1, hf2, hmp2, hne2, hex2, hx2, hst', hr2⟩ :=
    process_media_ok_elim sid (id0, id1, id2) outcome st r st' h
  have hchunks := fetch_chunks_after_process sid (id0, id1, id2) outcome st r st' h
  refine ⟨?_, hchunks, ?_⟩
  · subst hst'
    unfold fetch_session at hf2 ⊢
    cases hfind : st.sessions.find? (fun x => x.id == sid) with
    | none => rw [hfind] at hf2; simp at hf2
    | some s0 =>
      dsimp only
      rw [find?_markReady, hfind]
      exact ⟨_, rfl, rfl⟩
  · rw [hchunks]; rfl

/-- Witness for C5 at the concrete scenario of the spec (`clip.mp4`). -/
theorem C5_process_marks_ready_and_replaces_chunks_witness :
    (∃ s', fetch_session "s1" exSt2 = .ok s' ∧ s'.status = "ready") ∧
    fetch_chunks "s1" exSt2 = dummy_chunks "c1" "c2" "c3" "s1" ∧
    (fetch_chunks "s1" exSt2).map (fun c => (c.start_ms, c.end_ms, c.text)) =
      [((0 : Int), (15000 : Int), "Intro and setup for the round."),
       (15000, 30000, "Key play-by-play comms."),
       (30000, 45000, "Post-round recap and callouts.")] :=
  C5_process_marks_ready_and_replaces_chunks "s1" "c1" "c2" "c3" .ok exSt1 exUploaded
    "/data/uploads/s1/clip.mp4" exProcResp exSt2 rfl rfl rfl rfl

/-! ## C6 -/

/-- C6: with the same media input and decoder outcome, running `process` a
second time leaves the session's chunk table with the same transcript data
(same count, same `(session_id, start_ms, end_ms, text)` rows) as after the
first run: the second run replaces, never accumulates. -/
theorem C6_process_idempotent_chunk_data (sid : String)
    (ids1 ids2 : String × String × String) (outcome : FfmpegOutcome) (st : St)
    (r1 : ProcessResp) (st1 : St) (r2 : ProcessResp) (st2 : St)
    (h1 : process_media sid ids1 outcome st = (.ok r1, st1))
    (h2 : process_media sid ids2 outcome st1 = (.ok r2, st2)) :
    (fetch_chunks sid st2).map chunkData = (fetch_chunks sid st1).map chunkData ∧
    (fetch_chunks sid st2).length = (fetch_chunks sid st1).length := by
  have e1 := fetch_chunks_after_process sid ids1 outcome st r1 st1 h1
  have e2 := fetch_chunks_after_process sid ids2 outcome st1 r2 st2 h2
  rw [e1, e2]
  exact ⟨rfl, rfl⟩

/-- Witness for C6: process `s1` twice with fresh uuids each time. -/
theorem C6_process_idempotent_chunk_data_witness :
    (fetch_chunks "s1" exSt2b).map chunkData = (fetch_chunks "s1" exSt2).map chunkData ∧
    (fetch_chunks "s1" exSt2b).length = (fetch_chunks "s1" exSt2).length :=
  C6_process_idempotent_chunk_data "s1" ("c1", "c2", "c3") ("d1", "d2", "d3") .ok exSt1
    exProcResp exSt2 { session := "s1", audio_path := "/data/audio/s1.wav",
                       chunks := dummy_chunks "d1" "d2" "d3" "s1" } exSt2b rfl rfl

/-! ## Reduction of `process_media` past its guards -/

/-- With the session present, a nonempty recorded media path and the file on
disk, `process_media` is decided by the extraction result alone. -/
theorem process_media_reduce (sid : String) (ids : String × String × String)
    (outcome : FfmpegOutcome) (st : St) (s : Session) (mp : String)
    (hf : fetch_session sid st = .ok s) (hmp : s.media_path = some mp) (hne : mp ≠ "")
    (hex : st.fs.existsPath mp = true) :
    process_media sid ids outcome st =
      match extract_audio sid mp outcome st.fs with
      | (.error e, fs1) => (.error e, { st with fs := fs1 })
      | (.ok ap, fs1) =>
        (.ok { session := sid, audio_path := ap,
               chunks := fetch_chunks sid
                 { sessions := markReady sid ap st.sessions,
                   chunks := replaceChunks sid (dummy_chunks ids.1 ids.2.1 ids.2.2 sid) st.chunks,
                   fs := fs1 } },
         { sessions := markReady sid ap st.sessions,
           chunks := replaceChunks sid (dummy_chunks ids.1 ids.2.1 ids.2.2 sid) st.chunks,
           fs := fs1 }) := by
  unfold process_media
  rw [hf]
  dsimp only
  rw [hmp]
  dsimp only
  rw [if_neg hne, hex]
  rfl

/-! ## C4 -/

/-- C4: when the recorded media path has an extension in the allow-list
(case-insensitively), processing returns `audio_path = media_path` and the
decoder is never consulted (the run is identical for every decoder outcome);
for any other extension the decoder is invoked targeting
`AUDIO_DIR/<session_id>.wav` — on success that file exists and is the
returned `audio_path`, and a missing binary fails the run. -/
theorem C4_extension_allowlist (sid : String) (ids : String × String × String)
    (st : St) (s : Session) (mp : String)
    (hf : fetch_session sid st = .ok s) (hmp : s.media_path = some mp) (hne : mp ≠ "")
    (hex : st.fs.existsPath mp = true) :
    (audioExts.contains (pyLower (pySuffix mp)) = true →
      (∀ o1 o2 : FfmpegOutcome, process_media sid ids o1 st = process_media sid ids o2 st) ∧
      ∃ r st', process_media sid ids .ok st = (.ok r, st') ∧ r.audio_path = mp) ∧
    (audioExts.contains (pyLower (pySuffix mp)) = false →
      (∃ r st', process_media sid ids .ok st = (.ok r, st') ∧
        r.audio_path = AUDIO_DIR ++ "/" ++ sid ++ ".wav" ∧
        (st'.fs.files.lookup (normPath (AUDIO_DIR ++ "/" ++ sid ++ ".wav"))).isSome = true) ∧
      (process_media sid ids .binaryMissing st).1 =
        .error (.httpException 500 "ffmpeg is required to extract audio from video files.")) := by
  have hred := fun o => process_media_reduce sid ids o st s mp hf hmp hne hex
  constructor
  · intro hallow
    have hx : ∀ o : FfmpegOutcome,
        extract_audio sid mp o st.fs = (.ok mp, st.fs.mkdirp AUDIO_DIR) := by
      intro o
      unfold extract_audio
      rw [hallow]
      rfl
    constructor
    · intro o1 o2
      rw [hred o1, hred o2, hx o1, hx o2]
    · rw [hred .ok, hx .ok]
      exact ⟨_, _, rfl, rfl⟩
  · intro hallow
    have hxok : extract_audio sid mp .ok st.fs =
        (.ok (AUDIO_DIR ++ "/" ++ sid ++ ".wav"),
         (st.fs.mkdirp AUDIO_DIR).forceWrite (AUDIO_DIR ++ "/" ++ sid ++ ".wav")
           "pcm_s16le 16000") := by
      unfold extract_audio
      rw [hallow]
      rfl
    have hxmiss : extract_audio sid mp .binaryMissing st.fs =
        (.error (.httpException 500 "ffmpeg is required to extract audio from video files."),
         st.fs.mkdirp AUDIO_DIR) := by
      unfold extract_audio
      rw [hallow]
      rfl
    constructor
    · rw [hred .ok, hxok]
      refine ⟨_, _, rfl, rfl, ?_⟩
      simp [FS.forceWrite, setAssoc, List.lookup]
    · rw [hred .binaryMissing, hxmiss]

/-- Witness for C4 at two concrete sessions: a `.mkv` upload (decoder path)
and a `.WAV` upload (pass-through). -/
theorem C4_extension_allowlist_witness :
    ((audioExts.contains (pyLower (pySuffix "/data/uploads/s3/clip.mkv")) = true →
      (∀ o1 o2 : FfmpegOutcome,
        process_media "s3" ("a", "b", "c") o1 exStMkv
          = process_media "s3" ("a", "b", "c") o2 exStMkv) ∧
      ∃ r st', process_media "s3" ("a", "b", "c") .ok exStMkv = (.ok r, st') ∧
        r.audio_path = "/data/uploads/s3/clip.mkv") ∧
    (audioExts.contains (pyLower (pySuffix "/data/uploads/s3/clip.mkv")) = false →
      (∃ r st', process_media "s3" ("a", "b", "c") .ok exStMkv = (.ok r, st') ∧
        r.audio_path = AUDIO_DIR ++ "/" ++ "s3" ++ ".wav" ∧
        (st'.fs.files.lookup (normPath (AUDIO_DIR ++ "/" ++ "s3" ++ ".wav"))).isSome = true) ∧
      (process_media "s3" ("a", "b", "c") .binaryMissing exStMkv).1 =
        .error (.httpException 500 "ffmpeg is required to extract audio from video files."))) :=
  C4_extension_allowlist "s3" ("a", "b", "c") exStMkv exSessionMkv "/data/uploads/s3/clip.mkv"
    rfl rfl (by decide) (by decide)

/-! ## C7 -/

/-- C7: when extraction fails, the failure surfaces with its category
distinguishable — the missing-binary 500 ("ffmpeg is required ...") versus
the nonzero-exit 500 carrying the decoder's stderr — and in both cases the
session rows and chunk rows are exactly those from before the call. -/
theorem C7_extraction_failure (sid : String) (ids : String × String × String) (st : St)
    (s : Session) (mp : String) (stderr : String)
    (hf : fetch_session sid st = .ok s) (hmp : s.media_path = some mp) (hne : mp ≠ "")
    (hex : st.fs.existsPath mp = true)
    (hallow : audioExts.contains (pyLower (pySuffix mp)) = false) :
    (∃ st', process_media sid ids .binaryMissing st
        = (.error (.httpException 500 "ffmpeg is required to extract audio from video files."),
           st')
      ∧ st'.sessions = st.sessions ∧ st'.chunks = st.chunks) ∧
    (∃ st', process_media sid ids (.exitNonzero stderr) st
        = (.error (.httpException 500 ("Audio extraction failed: " ++ stderr)), st')
      ∧ st'.sessions = st.sessions ∧ st'.chunks = st.chunks) ∧
    "ffmpeg is required to extract audio from video files."
      ≠ "Audio extraction failed: " ++ stderr := by
  have hred := fun o => process_media_reduce sid ids o st s mp hf hmp hne hex
  have hxmiss : extract_audio sid mp .binaryMissing st.fs =
      (.error (.httpException 500 "ffmpeg is required to extract audio from video files."),
       st.fs.mkdirp AUDIO_DIR) := by
    unfold extract_audio
    rw [hallow]
    rfl
  have hxfail : extract_audio sid mp (.exitNonzero stderr) st.fs =
      (.error (.httpException 500 ("Audio extraction failed: " ++ stderr)),
       st.fs.mkdirp AUDIO_DIR) := by
    unfold extract_audio
    rw [hallow]
    rfl
  refine ⟨?_, ?_, ?_⟩
  · rw [hred .binaryMissing, hxmiss]
    exact ⟨_, rfl, rfl, rfl⟩
  · rw [hred (.exitNonzero stderr), hxfail]
    exact ⟨_, rfl, rfl, rfl⟩
  · intro hcontra
    have hchar : ('f' : Char) = 'A' := congrArg String.front hcontra
    exact absurd hchar (by decide)

/-- Witness for C7 at the `.mkv` session with stderr `"boom"`. -/
theorem C7_extraction_failure_witness :
    (∃ st', process_media "s3" ("a", "b", "c") .binaryMissing exStMkv
        = (.error (.httpException 500 "ffmpeg is required to extract audio from video files."),
           st')
      ∧ st'.sessions = exStMkv.sessions ∧ st'.chunks = exStMkv.chunks) ∧
    (∃ st', process_media "s3" ("a", "b", "c") (.exitNonzero "boom") exStMkv
        = (.error (.httpException 500 ("Audio extraction failed: " ++ "boom")), st')
      ∧ st'.sessions = exStMkv.sessions ∧ st'.chunks = exStMkv.chunks) ∧
    "ffmpeg is required to extract audio from video files."
      ≠ "Audio extraction failed: " ++ "boom" :=
  C7_extraction_failure "s3" ("a", "b", "c") exStMkv exSessionMkv "/data/uploads/s3/clip.mkv"
    "boom" rfl rfl (by decide) (by decide) (by decide)

/-! ## Handler state shapes (for invariant preservation) -/

/-- Whatever `upload_media` does, the chunk table is untouched and the
session table is either untouched or updated by `markUploaded`. -/
theorem upload_media_snd_shape (sid : String) (f : Option String) (content : String)
    (st : St) :
    (upload_media sid f content st).2.chunks = st.chunks ∧
    ((upload_media sid f content st).2.sessions = st.sessions ∨
     ∃ dest, (upload_media sid f content st).2.sessions = markUploaded sid dest st.sessions) := by
  unfold upload_media
  cases hf : fetch_session sid st with
  | error e => exact ⟨rfl, Or.inl rfl⟩
  | ok s =>
    dsimp only
    cases f with
    | none => exact ⟨rfl, Or.inl rfl⟩
    | some fn =>
      dsimp only
      by_cases hfn : fn = ""
      · rw [if_pos hfn]
        exact ⟨rfl, Or.inl rfl⟩
      · rw [if_neg hfn]
        cases hw : (st.fs.mkdirp (UPLOAD_DIR ++ "/" ++ sid)).writeFile
            (pyJoin (UPLOAD_DIR ++ "/" ++ sid) (pathName fn)) content with
        | error e => exact ⟨rfl, Or.inl rfl⟩
        | ok fs2 => exact ⟨rfl, Or.inr ⟨_, rfl⟩⟩

/-- Whatever `process_media` does, either both tables are untouched, or the
session is marked ready and its chunks are replaced in the same step. -/
theorem process_media_snd_shape (sid : String) (ids : String × String × String)
    (outcome : FfmpegOutcome) (st : St) :
    ((process_media sid ids outcome st).2.sessions = st.sessions ∧
     (process_media sid ids outcome st).2.chunks = st.chunks) ∨
    (∃ ap, (process_media sid ids outcome st).2.sessions = markReady sid ap st.sessions ∧
      (process_media sid ids outcome st).2.chunks
        = replaceChunks sid (dummy_chunks ids.1 ids.2.1 ids.2.2 sid) st.chunks) := by
  unfold process_media
  cases hf : fetch_session sid st with
  | error e => exact Or.inl ⟨rfl, rfl⟩
  | ok s =>
    dsimp only
    cases hmp : s.media_path with
    | none => exact Or.inl ⟨rfl, rfl⟩
    | some mp =>
      dsimp only
      by_cases hne : mp = ""
      · rw [if_pos hne]
        exact Or.inl ⟨rfl, rfl⟩
      · rw [if_neg hne]
        cases hex : st.fs.existsPath mp with
        | false => exact Or.inl ⟨rfl, rfl⟩
        | true =>
          cases hx : extract_audio sid mp outcome st.fs with
          | mk res fs1 =>
            cases res with
            | error e => exact Or.inl ⟨rfl, rfl⟩
            | ok ap => exact Or.inr ⟨ap, rfl, rfl⟩

/-! ## Preservation of the chunks-only-if-active invariant -/

theorem chunksOnlyIfActive_congr (st st' : St) (hs : st'.sessions = st.sessions)
    (hc : st'.chunks = st.chunks) (h : ChunksOnlyIfActive st) : ChunksOnlyIfActive st' := by
  unfold ChunksOnlyIfActive at h ⊢
  rw [hs, hc]
  exact h

theorem chunksOnlyIfActive_markUploaded (sid dest : String) (st st' : St)
    (hs : st'.sessions = markUploaded sid dest st.sessions) (hc : st'.chunks = st.chunks)
    (h : ChunksOnlyIfActive st) : ChunksOnlyIfActive st' := by
  unfold ChunksOnlyIfActive at h ⊢
  rw [hs, hc]
  intro s' hs' hne
  obtain ⟨s, hsmem, rfl⟩ := List.mem_map.mp hs'
  by_cases hid : s.id = sid
  · rw [if_pos (by simp [hid])]
    right
    rfl
  · rw [if_neg (by simp [hid])] at hne ⊢
    exact h s hsmem hne

theorem chunksOnlyIfActive_process_update (sid ap id0 id1 id2 : String) (st st' : St)
    (hs : st'.sessions = markReady sid ap st.sessions)
    (hc : st'.chunks = replaceChunks sid (dummy_chunks id0 id1 id2 sid) st.chunks)
    (h : ChunksOnlyIfActive st) : ChunksOnlyIfActive st' := by
  unfold ChunksOnlyIfActive at h ⊢
  rw [hs, hc]
  intro s' hs' hne
  obtain ⟨s, hsmem, rfl⟩ := List.mem_map.mp hs'
  by_cases hid : s.id = sid
  · rw [if_pos (by simp [hid])]
    left
    rfl
  · rw [if_neg (by simp [hid])] at hne ⊢
    refine (h s hsmem ?_).imp id id
    intro hnil
    apply hne
    unfold replaceChunks
    rw [List.filter_append]
    have hsymm : (sid == s.id) = false := beq_eq_false_iff_ne.mpr (fun e => hid e.symm)
    have hd : (dummy_chunks id0 id1 id2 sid).filter (fun c => c.session_id == s.id) = [] := by
      simp [dummy_chunks, hsymm]
    rw [hd, List.append_nil, List.filter_filter]
    rw [List.filter_eq_nil_iff] at hnil ⊢
    intro a ha hpa
    exact hnil a ha (Bool.and_eq_true_iff.mp hpa).1

/-! ## C9 -/

/-- C9 counterexample: after create → upload → process → re-upload, session
`s1` has status `uploaded` yet still owns the three chunks of the previous
run, so the chunks-only-if-`ready` invariant fails in a reachable state
(upload does not preserve it). -/
theorem C9_counterexample : Reachable exSt3 ∧ ¬ ChunksOnlyIfReady exSt3 :=
  ⟨Reachable.upload "s1" (some "clip2.mp4") "bytes2" exSt2
     (Reachable.process "s1" ("c1", "c2", "c3") .ok exSt1
       (Reachable.upload "s1" (some "clip.mp4") "bytes" exSt0
         (Reachable.init [exSession] (by decide)))),
   by decide⟩

/-- C9 amended: in every reachable store state a session has chunks only if
its status is `ready` or `uploaded`; `process` replaces a session's chunks in
the same transaction that marks it `ready` (see C5), but a re-upload keeps
the stale chunks while setting status `uploaded`, so `ready` alone is not an
invariant — this weaker one is, and every handler preserves it. -/
theorem C9_chunks_only_if_active (st : St) (h : Reachable st) : ChunksOnlyIfActive st := by
  induction h with
  | init sessions hinit =>
    intro s hs hne
    simp at hne
  | create title youtube_url session_id created_at st h ih => exact ih
  | upload session_id filename content st h ih =>
    obtain ⟨hc, hs⟩ := upload_media_snd_shape session_id filename content st
    rcases hs with hs | ⟨dest, hs⟩
    · exact chunksOnlyIfActive_congr st _ hs hc ih
    · exact chunksOnlyIfActive_markUploaded session_id dest st _ hs hc ih
  | process session_id ids outcome st h ih =>
    rcases process_media_snd_shape session_id ids outcome st with ⟨hs, hc⟩ | ⟨ap, hs, hc⟩
    · exact chunksOnlyIfActive_congr st _ hs hc ih
    · exact chunksOnlyIfActive_process_update session_id ap ids.1 ids.2.1 ids.2.2 st _ hs hc ih

/-- Witness for the amended C9 at the concrete stale-chunks state. -/
theorem C9_chunks_only_if_active_witness : ChunksOnlyIfActive exSt3 :=
  C9_chunks_only_if_active exSt3
    (Reachable.upload "s1" (some "clip2.mp4") "bytes2" exSt2
      (Reachable.process "s1" ("c1", "c2", "c3") .ok exSt1
        (Reachable.upload "s1" (some "clip.mp4") "bytes" exSt0
          (Reachable.init [exSession] (by decide)))))

/-! ## Path-component lemmas (for C8) -/

theorem splitSlashL_ne_nil (cs : List Char) : splitSlashL cs ≠ [] := by
  cases cs with
  | nil => simp [splitSlashL]
  | cons c cs =>
    unfold splitSlashL
    by_cases h : c = '/'
    · simp [h]
    · rw [if_neg h]
      cases hs : splitSlashL cs with
      | nil => simp
      | cons g gs => simp

theorem splitSlashL_append (xs ys : List Char) :
    splitSlashL (xs ++ '/' :: ys) = splitSlashL xs ++ splitSlashL ys := by
  induction xs with
  | nil => simp [splitSlashL]
  | cons c xs ih =>
    rw [List.cons_append]
    by_cases h : c = '/'
    · simp [splitSlashL, h, ih]
    · simp only [splitSlashL, if_neg h]
      rw [ih]
      cases hs : splitSlashL xs with
      | nil => exact absurd hs (splitSlashL_ne_nil xs)
      | cons g gs => simp

theorem no_slash_of_mem_splitSlashL (cs : List Char) (g : List Char)
    (hg : g ∈ splitSlashL cs) : '/' ∉ g := by
  induction cs generalizing g with
  | nil =>
    simp [splitSlashL] at hg
    subst hg
    simp
  | cons c cs ih =>
    by_cases h : c = '/'
    · rw [show splitSlashL (c :: cs) = [] :: splitSlashL cs from by simp [splitSlashL, h]] at hg
      rcases List.mem_cons.mp hg with rfl | hmem
      · simp
      · exact ih g hmem
    · simp only [splitSlashL, if_neg h] at hg
      cases hs : splitSlashL cs with
      | nil => exact absurd hs (splitSlashL_ne_nil cs)
      | cons g0 gs =>
        rw [hs] at hg
        rcases List.mem_cons.mp hg with rfl | hmem
        · intro hin
          rcases List.mem_cons.mp hin with he | hin0
          · exact h he.symm
          · exact ih g0 (by rw [hs]; exact List.mem_cons_self g0 gs) hin0
        · exact ih g (by rw [hs]; exact List.mem_cons_of_mem g0 hmem)

theorem splitSlashL_no_slash (l : List Char) (h : '/' ∉ l) : splitSlashL l = [l] := by
  induction l with
  | nil => rfl
  | cons c cs ih =>
    rw [List.mem_cons, not_or] at h
    have hc : ¬c = '/' := fun e => h.1 e.symm
    unfold splitSlashL
    rw [if_neg hc, ih h.2]

theorem pathCompsL_append_slash (a b : String) :
    pathCompsL (a ++ "/" ++ b) = pathCompsL a ++ pathCompsL b := by
  unfold pathCompsL
  have ht : (a ++ "/" ++ b).toList = a.toList ++ '/' :: b.toList := by
    show (a ++ "/" ++ b).data = a.data ++ '/' :: b.data
    rw [String.data_append, String.data_append, List.append_assoc]
    rfl
  rw [ht, splitSlashL_append, List.filter_append]

theorem pathCompsL_single (l : List Char) (h1 : '/' ∉ l) (h2 : ¬(l = [] ∨ l = ['.'])) :
    pathCompsL (String.mk l) = [l] := by
  unfold pathCompsL
  show (splitSlashL l).filter (fun c => !(c = [] ∨ c = ['.'])) = [l]
  rw [splitSlashL_no_slash l h1]
  obtain ⟨h2a, h2b⟩ := not_or.mp h2
  simp [h2a, h2b]

/-- The final path component: either there is none, or it is a nonempty,
non-`"."`, slash-free member of the component list. -/
theorem pathNameL_cases (f : String) :
    pathNameL f = [] ∨ (pathNameL f ∈ pathCompsL f ∧ pathNameL f ≠ [] ∧
      pathNameL f ≠ ['.'] ∧ '/' ∉ pathNameL f) := by
  unfold pathNameL
  cases hc : pathCompsL f with
  | nil => left; rfl
  | cons g gs =>
    right
    have hne : (g :: gs) ≠ ([] : List (List Char)) := by simp
    rw [List.getLast?_eq_getLast _ hne, Option.getD_some]
    have hmem : (g :: gs).getLast hne ∈ pathCompsL f := by
      rw [hc]; exact List.getLast_mem hne
    have hmemf := hmem
    unfold pathCompsL at hmemf
    have hpred := (List.mem_filter.mp hmemf).2
    have hsplit := (List.mem_filter.mp hmemf).1
    simp only [Bool.not_eq_true', decide_eq_false_iff_not, not_or] at hpred
    exact ⟨List.getLast_mem hne, hpred.1, hpred.2, no_slash_of_mem_splitSlashL f.toList _ hsplit⟩

theorem normCompsL_append_slash (a b : String) :
    normCompsL (a ++ "/" ++ b)
      = (pathCompsL b).foldl
          (fun acc c => if c = ['.', '.'] then acc.dropLast else acc ++ [c])
          (normCompsL a) := by
  unfold normCompsL
  rw [pathCompsL_append_slash, List.foldl_append]

theorem normCompsL_append_single (a : String) (l : List Char) (h1 : '/' ∉ l)
    (h2 : ¬(l = [] ∨ l = ['.'])) (h3 : l ≠ ['.', '.']) :
    normCompsL (a ++ "/" ++ String.mk l) = normCompsL a ++ [l] := by
  rw [normCompsL_append_slash, pathCompsL_single l h1 h2]
  simp [h3]

theorem normCompsL_append_drop (a : String) :
    normCompsL (a ++ "/" ++ String.mk ['.', '.']) = (normCompsL a).dropLast := by
  rw [normCompsL_append_slash]
  rw [show pathCompsL (String.mk ['.', '.']) = [['.', '.']] from rfl]
  simp

theorem normPath_mem_mkdirChain (p : String) : normPath p ∈ mkdirChain p := by
  unfold mkdirChain normPath
  refine List.mem_map.mpr ⟨(normCompsL p).length, ?_, ?_⟩
  · exact List.mem_range.mpr (Nat.lt_succ_self _)
  · rw [List.take_length]

theorem dropLast_normPath_mem_mkdirChain (p dest : String)
    (hd : normCompsL dest = (normCompsL p).dropLast) :
    normPath dest ∈ mkdirChain p := by
  unfold mkdirChain normPath
  refine List.mem_map.mpr ⟨(normCompsL p).length - 1, ?_, ?_⟩
  · exact List.mem_range.mpr (Nat.lt_succ_of_le (Nat.sub_le _ _))
  · rw [hd, List.dropLast_eq_take]

theorem mkdirp_contains_of_mem_chain (fs : FS) (p x : String)
    (hx : x ∈ mkdirChain p) : ((fs.mkdirp p).dirs.contains x) = true := by
  unfold FS.mkdirp
  dsimp only
  simp only [List.contains, List.elem_eq_mem, decide_eq_true_eq, List.mem_dedup,
    List.mem_append]
  exact Or.inl hx

/-! ## C8 -/

/-- C8: the stored path is derived from the base filename component alone.
On success the path is `UPLOAD_DIR/<sid>/<base>` where `base = Path(f).name`
contains no separator and is none of `""`, `"."`, `".."`; its canonical form
is the per-session directory's canonical components plus that single
component (so the file sits inside the per-session upload directory), and the
write replaces any prior file at that path.  On failure (which is what a bare
`".."` or `"."` filename produces — the target resolves to an existing
directory) no file is written at all. -/
theorem C8_upload_filename_sanitized (sid f content : String) (st : St) :
    (∀ e st', upload_media sid (some f) content st = (.error e, st') →
      st'.fs.files = st.fs.files) ∧
    (∀ r st', upload_media sid (some f) content st = (.ok r, st') →
      r.stored_path = UPLOAD_DIR ++ "/" ++ sid ++ "/" ++ pathName f ∧
      '/' ∉ (pathName f).toList ∧
      pathName f ≠ "" ∧ pathName f ≠ "." ∧ pathName f ≠ ".." ∧
      normCompsL r.stored_path = normCompsL (UPLOAD_DIR ++ "/" ++ sid) ++ [pathNameL f] ∧
      st'.fs.files = setAssoc (normPath r.stored_path) content st.fs.files ∧
      st'.fs.files.lookup (normPath r.stored_path) = some content) := by
  constructor
  · intro e st' h
    unfold upload_media at h
    cases hf : fetch_session sid st with
    | error e2 =>
      rw [hf] at h
      dsimp only at h
      simp only [Prod.mk.injEq, Except.error.injEq] at h
      rw [← h.2]
    | ok s =>
      rw [hf] at h
      dsimp only at h
      by_cases hfn : f = ""
      · rw [if_pos hfn] at h
        simp only [Prod.mk.injEq, Except.error.injEq] at h
        rw [← h.2]
      · rw [if_neg hfn] at h
        cases hw : (st.fs.mkdirp (UPLOAD_DIR ++ "/" ++ sid)).writeFile
            (pyJoin (UPLOAD_DIR ++ "/" ++ sid) (pathName f)) content with
        | error e3 =>
          rw [hw] at h
          dsimp only at h
          simp only [Prod.mk.injEq, Except.error.injEq] at h
          rw [← h.2]
          rfl
        | ok fs2 =>
          rw [hw] at h
          dsimp only at h
          simp at h
  · intro r st' h
    obtain ⟨s, fn, fs2, hf, hfeq, hfn, hr, hw, hst'⟩ :=
      upload_media_ok_elim sid (some f) content st r st' h
    obtain rfl : f = fn := Option.some.inj hfeq
    have hw' := hw
    have hcontains : ((st.fs.mkdirp (UPLOAD_DIR ++ "/" ++ sid)).dirs.contains
        (normPath (pyJoin (UPLOAD_DIR ++ "/" ++ sid) (pathName f)))) = false := by
      rcases Bool.eq_false_or_eq_true ((st.fs.mkdirp (UPLOAD_DIR ++ "/" ++ sid)).dirs.contains
          (normPath (pyJoin (UPLOAD_DIR ++ "/" ++ sid) (pathName f)))) with hct | hcf
      · unfold FS.writeFile at hw'
        rw [hct] at hw'
        simp at hw'
      · exact hcf
    have hbne : pathNameL f ≠ [] := by
      intro hnil
      have hpn : pathName f = "" := by
        unfold pathName
        rw [hnil]
      have hdest : pyJoin (UPLOAD_DIR ++ "/" ++ sid) (pathName f)
          = UPLOAD_DIR ++ "/" ++ sid := by
        rw [hpn]
        rfl
      rw [hdest] at hcontains
      have hctrue := mkdirp_contains_of_mem_chain st.fs (UPLOAD_DIR ++ "/" ++ sid) _
        (normPath_mem_mkdirChain (UPLOAD_DIR ++ "/" ++ sid))
      exact absurd (hctrue.symm.trans hcontains) (by decide)
    rcases pathNameL_cases f with hnil | ⟨hmem, hne, hdot, hslash⟩
    · exact absurd hnil hbne
    have hpnne : pathName f ≠ "" := fun e => hne (congrArg String.data e)
    have hdd : pathNameL f ≠ ['.', '.'] := by
      intro hddL
      have hpn : pathName f = String.mk ['.', '.'] := by
        unfold pathName
        rw [hddL]
      have hdest : pyJoin (UPLOAD_DIR ++ "/" ++ sid) (pathName f)
          = (UPLOAD_DIR ++ "/" ++ sid) ++ "/" ++ String.mk ['.', '.'] := by
        unfold pyJoin
        rw [if_neg hpnne, hpn]
      have hnormd : normCompsL (pyJoin (UPLOAD_DIR ++ "/" ++ sid) (pathName f))
          = (normCompsL (UPLOAD_DIR ++ "/" ++ sid)).dropLast := by
        rw [hdest]
        exact normCompsL_append_drop (UPLOAD_DIR ++ "/" ++ sid)
      have hmemchain := dropLast_normPath_mem_mkdirChain (UPLOAD_DIR ++ "/" ++ sid) _ hnormd
      have hctrue := mkdirp_contains_of_mem_chain st.fs (UPLOAD_DIR ++ "/" ++ sid) _ hmemchain
      exact absurd (hctrue.symm.trans hcontains) (by decide)
    have hpndot : pathName f ≠ "." := fun e => hdot (congrArg String.data e)
    have hpndd : pathName f ≠ ".." := fun e => hdd (congrArg String.data e)
    have hdest : pyJoin (UPLOAD_DIR ++ "/" ++ sid) (pathName f)
        = UPLOAD_DIR ++ "/" ++ sid ++ "/" ++ pathName f := by
      unfold pyJoin
      rw [if_neg hpnne]
    unfold FS.writeFile at hw
    rw [hcontains] at hw
    simp only [Bool.false_eq_true, if_false, Except.ok.injEq] at hw
    have hnormsingle : normCompsL (pyJoin (UPLOAD_DIR ++ "/" ++ sid) (pathName f))
        = normCompsL (UPLOAD_DIR ++ "/" ++ sid) ++ [pathNameL f] := by
      rw [hdest]
      exact normCompsL_append_single (UPLOAD_DIR ++ "/" ++ sid) (pathNameL f) hslash
        (not_or.mpr ⟨hne, hdot⟩) hdd
    refine ⟨?_, hslash, hpnne, hpndot, hpndd, ?_, ?_, ?_⟩
    · rw [hr]
      exact hdest
    · rw [hr]
      exact hnormsingle
    · rw [hst', ← hw, hr]
      rfl
    · rw [hst', ← hw, hr]
      simp [setAssoc, List.lookup]

/-- Witness for C8: a path-traversal payload filename is stripped to its
base component and stored inside the per-session directory. -/
theorem C8_upload_filename_sanitized_witness :
    exEvilResp.stored_path
      = UPLOAD_DIR ++ "/" ++ "s1" ++ "/" ++ pathName "../../../etc/evil.mp4" ∧
    '/' ∉ (pathName "../../../etc/evil.mp4").toList ∧
    pathName "../../../etc/evil.mp4" ≠ "" ∧ pathName "../../../etc/evil.mp4" ≠ "." ∧
    pathName "../../../etc/evil.mp4" ≠ ".." ∧
    normCompsL exEvilResp.stored_path
      = normCompsL (UPLOAD_DIR ++ "/" ++ "s1") ++ [pathNameL "../../../etc/evil.mp4"] ∧
    exStEvil.fs.files = setAssoc (normPath exEvilResp.stored_path) "payload" exSt0.fs.files ∧
    exStEvil.fs.files.lookup (normPath exEvilResp.stored_path) = some "payload" :=
  (C8_upload_filename_sanitized "s1" "../../../etc/evil.mp4" "payload" exSt0).2
    exEvilResp exStEvil rfl

end Vodcomms
